import Mathlib

/-!
Shallow embedding of the C memory benchmark utilities of this repository
(`mem_read_bench.c`, `mem_write_bench.c`, `mem_mixed_bench.c`,
`mem_pressure.c`, under `scripts/debian-install/`), with proofs about their
statistics pipeline, access-order generation, pattern fills and
error-handling paths.

Modelling conventions:
* machine integers are `Nat` with explicit reductions: `% U64` for
  `uint64_t` wrap-around, `% 2147483648` for the `& 0x7fffffff` mask of the
  LCG state (the mask is all-ones below bit 31, so masking equals taking the
  residue mod `2 ^ 31`; reducing the 64-bit `unsigned long` product mod
  `2 ^ 31` afterwards gives the same residue), `% 256` for the `& 0xFF`
  byte mask and `unsigned char` casts;
* a `uint64_t latencies[]` array together with its `count` field is
  modelled as a `List Nat` whose length is the count;
* the latencies measured by `clock_gettime`, and the success of `madvise`
  and `malloc` calls, are environment inputs; they enter the model as
  oracle parameters (`lat : Nat → Nat`, `madviseOk : Nat → Bool`, ...);
* `qsort` with `compare_uint64` sorts the sample array ascending (the
  comparator returns negative/zero/positive exactly as `<`/`=`/`>`); its
  result is the unique sorted permutation of a list of numbers, here
  produced by `List.mergeSort`;
* `(size_t)((percentile / 100.0) * count)` is modelled as the exact
  rational floor `percentile * count / 100` in `Nat`.
-/

/-- `2 ^ 64`, the modulus of `uint64_t` arithmetic. -/
def U64 : Nat := 18446744073709551616

/-- A `struct timespec`: seconds and nanoseconds, both non-negative for the
monotonic clock readings used by the benchmarks. -/
structure Timespec where
  tv_sec : Nat
  tv_nsec : Nat

/-- Total nanoseconds represented by a timespec, before `uint64_t`
truncation. -/
def Timespec.ns (t : Timespec) : Nat := t.tv_sec * 1000000000 + t.tv_nsec

/-- `timespec_diff_ns` (identical in mem_read_bench.c:57-61,
mem_write_bench.c:100-104 and mem_mixed_bench.c:55-59): both timestamps are
converted to nanoseconds as `uint64_t`, and the difference
`end_ns - start_ns` is taken in wrap-around `uint64_t` arithmetic, i.e.
`(end_ns + 2 ^ 64 - start_ns) % 2 ^ 64`. -/
def timespec_diff_ns (start stop : Timespec) : Nat :=
  let start_ns := start.ns % U64
  let end_ns := stop.ns % U64
  (end_ns + (U64 - start_ns)) % U64

/-- The latency statistics record of mem_read_bench.c:38-44 and
mem_write_bench.c:36-42; the `latencies` array and its `count` are one
list, `count` being the length. -/
structure latency_stats_t where
  latencies : List Nat
  min_ns : Nat
  max_ns : Nat
  total_ns : Nat

/-- `calculate_statistics` (mem_read_bench.c:71-83, identical in
mem_write_bench.c:114-129): on a non-empty sample array, sort it ascending
(`qsort` with `compare_uint64`), set `min_ns`/`max_ns` to the first/last
sorted entry and `total_ns` to the (uint64, wrapping) sum; on an empty
array return immediately, leaving the record unchanged. -/
def calculate_statistics (stats : latency_stats_t) : latency_stats_t :=
  if stats.latencies.length = 0 then stats
  else
    let sorted := stats.latencies.mergeSort
    { latencies := sorted
      min_ns := sorted.getD 0 0
      max_ns := sorted.getD (sorted.length - 1) 0
      total_ns := sorted.foldl (fun acc x => (acc + x) % U64) 0 }

/-- `get_percentile` (mem_read_bench.c:85-92, identical in
mem_write_bench.c:131-138): `0` on an empty array, otherwise the entry at
index `floor(percentile / 100 * count)`, clamped to `count - 1`. -/
def get_percentile (stats : latency_stats_t) (percentile : Nat) : Nat :=
  if stats.latencies.length = 0 then 0
  else
    let index := percentile * stats.latencies.length / 100
    let index := if stats.latencies.length ≤ index then stats.latencies.length - 1 else index
    stats.latencies.getD index 0

/-- The numeric fields of the JSON document printed by
`print_results_json` of mem_write_bench.c (the `_us` values are these
nanosecond numbers divided by 1000 for display). -/
structure WriteReport where
  pages_tested : Nat
  min_ns : Nat
  max_ns : Nat
  avg_ns : Nat
  p50_ns : Nat
  p95_ns : Nat
  p99_ns : Nat

/-- `print_results_json` (mem_write_bench.c:140-166): with no collected
samples it prints an error to stderr and returns without emitting a result
document (modelled as `none`); otherwise it computes `avg_ns` by integer
division `total_ns / count` and the three percentiles, and prints them. -/
def print_results_json (stats : latency_stats_t) : Option WriteReport :=
  if stats.latencies.length = 0 then none
  else some
    { pages_tested := stats.latencies.length
      min_ns := stats.min_ns
      max_ns := stats.max_ns
      avg_ns := stats.total_ns / stats.latencies.length
      p50_ns := get_percentile stats 50
      p95_ns := get_percentile stats 95
      p99_ns := get_percentile stats 99 }

/-- C2 (amended): `timespec_diff_ns` computes the difference in wrap-around
`uint64_t` arithmetic. When the nanosecond totals fit in `uint64_t` and the
end timestamp is not before the start, the result is exactly
`end - start` in nanoseconds; when the end timestamp is strictly before the
start, the result is the wrapped value `2 ^ 64 - (start - end)` — it does
NOT saturate at 0. -/
theorem claim2 (s e : Timespec) (hs : s.ns < U64) (he : e.ns < U64) :
    (s.ns ≤ e.ns → timespec_diff_ns s e = e.ns - s.ns) ∧
    (e.ns < s.ns → timespec_diff_ns s e = U64 - (s.ns - e.ns)) := by
  have hU : 0 < U64 := by decide
  constructor
  · intro hle
    show (e.ns % U64 + (U64 - s.ns % U64)) % U64 = e.ns - s.ns
    rw [Nat.mod_eq_of_lt hs, Nat.mod_eq_of_lt he]
    have h1 : e.ns + (U64 - s.ns) = (e.ns - s.ns) + U64 := by omega
    rw [h1, Nat.add_mod_right]
    exact Nat.mod_eq_of_lt (by omega)
  · intro hlt
    show (e.ns % U64 + (U64 - s.ns % U64)) % U64 = U64 - (s.ns - e.ns)
    rw [Nat.mod_eq_of_lt hs, Nat.mod_eq_of_lt he]
    have h1 : e.ns + (U64 - s.ns) = U64 - (s.ns - e.ns) := by omega
    rw [h1]
    exact Nat.mod_eq_of_lt (by omega)

/-- The LCG `fast_rand` (mem_read_bench.c:51-55, identical in
mem_write_bench.c:49-53 and mem_pressure.c:48-52): advance
`rand_state = (rand_state * 1103515245 + 12345) & 0x7fffffff` and return the
low byte. Returns the new state and the byte. -/
def fast_rand (rand_state : Nat) : Nat × Nat :=
  let state := (rand_state * 1103515245 + 12345) % 2147483648
  (state, state % 256)

/-- The swap in the body of `shuffle_array` (mem_read_bench.c:98-100):
`temp = array[j]; array[j] = array[i]; array[i] = temp`. -/
def list_swap (array : List Nat) (i j : Nat) : List Nat :=
  (array.set j (array.getD i 0)).set i (array.getD j 0)

/-- The loop of `shuffle_array` (mem_read_bench.c:96-101): for each
`i < n - 1`, draw `j = i + fast_rand() % (n - i)` and swap entries `i` and
`j`. Threads the LCG state and returns it with the shuffled list. -/
def shuffle_go (array : List Nat) (n i rand_state : Nat) : List Nat × Nat :=
  if i < n - 1 then
    let fr := fast_rand rand_state
    let j := i + fr.2 % (n - i)
    shuffle_go (list_swap array i j) n (i + 1) fr.1
  else (array, rand_state)
termination_by n - 1 - i

/-- `shuffle_array` (mem_read_bench.c:94-103): run the swap loop when
`n > 1`, otherwise leave the array untouched. -/
def shuffle_array (array : List Nat) (n rand_state : Nat) : List Nat × Nat :=
  if 1 < n then shuffle_go array n 0 rand_state else (array, rand_state)

/-- The stride access-order loop of mem_read_bench.c:252-258: starting from
page 0, record every `STRIDE_SIZE`-th (16th, mem_read_bench.c:34) page index
below `num_pages`. -/
def stride_order (num_pages i : Nat) : List Nat :=
  if i < num_pages then i :: stride_order num_pages (i + 16) else []
termination_by num_pages - i

/-- A run of `fast_rand()` bytes, as written by the random-fill loops
(`for (i = 0; i < size; i++) buffer[i] = fast_rand();`), threading the LCG
state; returns the bytes in order and the final state. -/
def fill_random (size rand_state : Nat) : List Nat × Nat :=
  match size with
  | 0 => ([], rand_state)
  | k + 1 =>
    let fr := fast_rand rand_state
    let rest := fill_random k fr.1
    (fr.2 :: rest.1, rest.2)

/-- The mixed branch of `fill_pattern` (mem_pressure.c:74-100): walk the
range in page-sized (4096-byte) chunks; for each chunk pick the subpattern
`((offset + i) / 4096) % 4` — random bytes, the repeated byte
`(offset + i) % 256`, zeros, or the sequential bytes `(offset + i + j) % 256`. -/
def fill_mixed (size i offset rand_state : Nat) : List Nat × Nat :=
  if i < size then
    let chunk_size := min (size - i) 4096
    let subpattern := ((offset + i) / 4096) % 4
    let filled :=
      if subpattern = 0 then fill_random chunk_size rand_state
      else if subpattern = 1 then (List.replicate chunk_size ((offset + i) % 256), rand_state)
      else if subpattern = 2 then (List.replicate chunk_size 0, rand_state)
      else ((List.range chunk_size).map (fun j => (offset + i + j) % 256), rand_state)
    let rest := fill_mixed size (i + 4096) offset filled.2
    (filled.1 ++ rest.1, rest.2)
  else ([], rand_state)
termination_by size - i
decreasing_by omega

/-- `fill_pattern` (mem_pressure.c:54-102): pattern 1 is `fast_rand()`
bytes, pattern 2 is zeros (`memset(buffer, 0, size)`), pattern 3 is the
sequential bytes `(offset + i) % 256`, and every other value (case 0 and
`default`) is the mixed per-page fill. Returns the written bytes and the
final LCG state. -/
def fill_pattern (size pattern_type offset rand_state : Nat) : List Nat × Nat :=
  if pattern_type = 1 then fill_random size rand_state
  else if pattern_type = 2 then (List.replicate size 0, rand_state)
  else if pattern_type = 3 then
    ((List.range size).map (fun i => (offset + i) % 256), rand_state)
  else fill_mixed size 0 offset rand_state

/-- `fill_page` (mem_write_bench.c:55-98): fills one 4096-byte page.
Pattern 1 is `fast_rand()` bytes, pattern 2 is zeros, pattern 3 is the
sequential bytes `(page_index * 4096 + i) % 256`; case 0 and `default`
choose by `page_index % 4` between random bytes, the repeated byte
`page_index % 256`, zeros, and the same sequential bytes. -/
def fill_page (pattern_type page_index rand_state : Nat) : List Nat × Nat :=
  if pattern_type = 1 then fill_random 4096 rand_state
  else if pattern_type = 2 then (List.replicate 4096 0, rand_state)
  else if pattern_type = 3 then
    ((List.range 4096).map (fun i => (page_index * 4096 + i) % 256), rand_state)
  else
    if page_index % 4 = 0 then fill_random 4096 rand_state
    else if page_index % 4 = 1 then (List.replicate 4096 (page_index % 256), rand_state)
    else if page_index % 4 = 2 then (List.replicate 4096 0, rand_state)
    else ((List.range 4096).map (fun i => (page_index * 4096 + i) % 256), rand_state)

namespace Mixed

/-- The latency statistics record of mem_mixed_bench.c:36-43: as in the
other benchmarks but with an explicit `capacity`; the `latencies` array and
its `count` are one list, `count` being the length. -/
structure latency_stats_t where
  latencies : List Nat
  capacity : Nat
  min_ns : Nat
  max_ns : Nat
  total_ns : Nat

/-- `init_stats` (mem_mixed_bench.c:69-76): empty sample list, the given
capacity, `min_ns = UINT64_MAX`, `max_ns = 0`, `total_ns = 0`. -/
def init_stats (capacity : Nat) : latency_stats_t :=
  { latencies := [], capacity := capacity, min_ns := U64 - 1, max_ns := 0, total_ns := 0 }

/-- `add_latency` (mem_mixed_bench.c:78-82): append the sample while
`count < capacity`, otherwise drop it silently, leaving the record
unchanged. -/
def add_latency (stats : latency_stats_t) (latency_ns : Nat) : latency_stats_t :=
  if stats.latencies.length < stats.capacity then
    { stats with latencies := stats.latencies ++ [latency_ns] }
  else stats

/-- The LCG `fast_rand_range` (mem_mixed_bench.c:50-53): advance
`rand_state = (rand_state * 1103515245 + 12345) & 0x7fffffff` and return the
state together with `rand_state % max`. -/
def fast_rand_range (max rand_state : Nat) : Nat × Nat :=
  let state := (rand_state * 1103515245 + 12345) % 2147483648
  (state, state % max)

/-- `get_percentile` (mem_mixed_bench.c:98-105), identical to the other
benchmarks but on the capacity-carrying record. -/
def get_percentile (stats : latency_stats_t) (percentile : Nat) : Nat :=
  if stats.latencies.length = 0 then 0
  else
    let index := percentile * stats.latencies.length / 100
    let index := if stats.latencies.length ≤ index then stats.latencies.length - 1 else index
    stats.latencies.getD index 0

/-- The numeric fields of one `read_stats` / `write_stats` block of the
JSON document of mem_mixed_bench.c (the `_us` values are these nanosecond
numbers divided by 1000 for display). -/
structure StatsBlock where
  count : Nat
  min_ns : Nat
  max_ns : Nat
  avg_ns : Nat
  p50_ns : Nat
  p95_ns : Nat
  p99_ns : Nat

/-- `print_results_json` (mem_mixed_bench.c:107-154): the `read_stats`
block is emitted only when `read_stats->count > 0`, and the `write_stats`
block only when `write_stats->count > 0`; an empty side is simply absent
(`none`). -/
def print_results_json (read_stats write_stats : latency_stats_t) :
    Option StatsBlock × Option StatsBlock :=
  ((if 0 < read_stats.latencies.length then
      some { count := read_stats.latencies.length
             min_ns := read_stats.min_ns
             max_ns := read_stats.max_ns
             avg_ns := read_stats.total_ns / read_stats.latencies.length
             p50_ns := get_percentile read_stats 50
             p95_ns := get_percentile read_stats 95
             p99_ns := get_percentile read_stats 99 }
    else none),
   (if 0 < write_stats.latencies.length then
      some { count := write_stats.latencies.length
             min_ns := write_stats.min_ns
             max_ns := write_stats.max_ns
             avg_ns := write_stats.total_ns / write_stats.latencies.length
             p50_ns := get_percentile write_stats 50
             p95_ns := get_percentile write_stats 95
             p99_ns := get_percentile write_stats 99 }
    else none))

/-- The mutable state of the measurement loop: the LCG state and the two
statistics records. -/
structure RunState where
  rand_state : Nat
  read_stats : latency_stats_t
  write_stats : latency_stats_t

/-- One iteration of the measurement loop (mem_mixed_bench.c:243-277):
draw a random page index, then decide `is_read = fast_rand_range(100) <
read_pct`; on the read path touch the page, on the write path dirty it and
issue `madvise(page, PAGE_SIZE, MADV_PAGEOUT)` — whose return value the code
does not inspect (here the oracle value `madviseOk i`, bound and unused);
finally record the measured latency (oracle `lat i`) with `add_latency`
into the side matching the classification. -/
def measure_step (madviseOk : Nat → Bool) (lat : Nat → Nat) (num_pages read_pct : Nat)
    (st : RunState) (i : Nat) : RunState :=
  let r1 := fast_rand_range num_pages st.rand_state
  let r2 := fast_rand_range 100 r1.1
  let latency := lat i
  if r2.2 < read_pct then
    { st with rand_state := r2.1, read_stats := add_latency st.read_stats latency }
  else
    let _madvise_result := madviseOk i
    { st with rand_state := r2.1, write_stats := add_latency st.write_stats latency }

/-- The measurement loop of mem_mixed_bench.c:241-277: both statistics
records are initialised with capacity `num_pages`
(mem_mixed_bench.c:204-206) and `operations = num_pages * 2` iterations are
run. -/
def measure_loop (madviseOk : Nat → Bool) (lat : Nat → Nat)
    (num_pages read_pct rand_state : Nat) : RunState :=
  (List.range (num_pages * 2)).foldl (measure_step madviseOk lat num_pages read_pct)
    { rand_state := rand_state
      read_stats := init_stats num_pages
      write_stats := init_stats num_pages }

end Mixed

/-- The measurement loop of mem_write_bench.c:257-275: for each page, time
`madvise(page, PAGE_SIZE, MADV_PAGEOUT)` and record the sample only when
the call returned 0 (`if (result == 0)`); the success of each call is the
oracle `madviseOk`, the measured latency the oracle `lat`. -/
def write_measure_loop (madviseOk : Nat → Bool) (lat : Nat → Nat) (num_pages : Nat) : List Nat :=
  (List.range num_pages).foldl
    (fun latencies i => if madviseOk i then latencies ++ [lat i] else latencies) []

/-- The allocation phase of mem_pressure.c main (lines 139-157): try
`malloc(total_size)`; on failure retry once with `malloc(total_size / 2)`;
only if that also fails exit with code 1 (`none`). On success the program
continues with the size actually allocated. The oracle `mallocOk` says for
each size whether `malloc` succeeds. -/
def mem_pressure_allocate (mallocOk : Nat → Bool) (total_size : Nat) : Option Nat :=
  if mallocOk total_size then some total_size
  else if mallocOk (total_size / 2) then some (total_size / 2)
  else none

/-- Outcome of the setup phase of mem_read_bench.c main (lines 177-198). -/
inductive SetupOutcome where
  | proceed
  | exit1_nothing_held
  | exit1_region_released
deriving DecidableEq

/-- The setup phase of mem_read_bench.c main (lines 177-198, the same shape
in mem_write_bench.c:207-227 and mem_mixed_bench.c:194-212): if `mmap`
fails, exit 1 with nothing acquired; if the stats-array `malloc` fails,
`munmap` the region and exit 1; in both cases no statistics are produced
and no retry with a different size is attempted. -/
def mem_read_bench_setup (mmapOk mallocOk : Bool) : SetupOutcome :=
  if mmapOk = false then SetupOutcome.exit1_nothing_held
  else if mallocOk = false then SetupOutcome.exit1_region_released
  else SetupOutcome.proceed

/-- Witness for C2 (amended) at a concrete pair of timestamps. -/
theorem claim2_witness :
    timespec_diff_ns ⟨0, 5⟩ ⟨0, 12⟩ = 7 ∧
    timespec_diff_ns ⟨0, 12⟩ ⟨0, 5⟩ = U64 - 7 := by
  constructor
  · have h := (claim2 ⟨0, 5⟩ ⟨0, 12⟩ (by decide) (by decide)).1 (by decide)
    simpa [Timespec.ns] using h
  · have h := (claim2 ⟨0, 12⟩ ⟨0, 5⟩ (by decide) (by decide)).2 (by decide)
    simpa [Timespec.ns] using h

/-- Counterexample for C2 as stated: with `start` one second after `end`,
the claimed saturation at 0 does not happen; the wrapped difference is the
huge value `2 ^ 64 - 10 ^ 9`. -/
theorem claim2_counterexample :
    timespec_diff_ns ⟨1, 0⟩ ⟨0, 0⟩ = U64 - 1000000000 ∧
    timespec_diff_ns ⟨1, 0⟩ ⟨0, 0⟩ ≠ 0 := by
  constructor
  · decide
  · decide

/-- C4: on an empty sample sequence, `calculate_statistics` returns at once
leaving the record unchanged, and `print_results_json` yields the explicit
no-data sentinel instead of a report: the `avg_ns = total_ns / count`
division and the percentile lookups are never reached, so no divide-by-zero
or NaN can appear in the output. -/
theorem claim4 (stats : latency_stats_t) (h : stats.latencies = []) :
    calculate_statistics stats = stats ∧ print_results_json stats = none := by
  constructor
  · simp [calculate_statistics, h]
  · simp [print_results_json, h]

/-- Witness for C4 at the concrete empty statistics record. -/
theorem claim4_witness :
    calculate_statistics ⟨[], 0, 0, 0⟩ = ⟨[], 0, 0, 0⟩ ∧
    print_results_json ⟨[], 0, 0, 0⟩ = none :=
  claim4 ⟨[], 0, 0, 0⟩ rfl

/-- Reading an in-bounds index with `getD` is reading the element. -/
theorem getD_of_lt (l : List Nat) (i : Nat) (h : i < l.length) :
    l.getD i 0 = l.get ⟨i, h⟩ := by
  simp [List.getD_eq_getElem?_getD, List.getElem?_eq_getElem h]

/-- In an ascending-sorted list, entries at increasing indices are
non-decreasing. -/
theorem sorted_getD_le (L : List Nat) (hs : L.Sorted (· ≤ ·)) (i j : Nat)
    (hij : i ≤ j) (hj : j < L.length) : L.getD i 0 ≤ L.getD j 0 := by
  have hi : i < L.length := Nat.lt_of_le_of_lt hij hj
  rw [getD_of_lt L i hi, getD_of_lt L j hj]
  exact hs.rel_get_of_le (a := ⟨i, hi⟩) (b := ⟨j, hj⟩) hij

/-- C1: on a non-empty sample sequence, `calculate_statistics` sorts the
samples ascending and then the reported values are ordered
`min_ns ≤ p50 ≤ p95 ≤ p99 ≤ max_ns` (with `pXX = get_percentile` at
50, 95 and 99), and the count of samples in the resulting record equals the
number of samples fed in. -/
theorem claim1 (samples : List Nat) (mn mx tot : Nat) (st : latency_stats_t)
    (hne : samples ≠ []) (hst : st = calculate_statistics ⟨samples, mn, mx, tot⟩) :
    st.min_ns ≤ get_percentile st 50 ∧
    get_percentile st 50 ≤ get_percentile st 95 ∧
    get_percentile st 95 ≤ get_percentile st 99 ∧
    get_percentile st 99 ≤ st.max_ns ∧
    st.latencies.length = samples.length := by
  subst hst
  have hlen0 : samples.length ≠ 0 := fun hc => hne (List.length_eq_zero.mp hc)
  have hcs : calculate_statistics ⟨samples, mn, mx, tot⟩ =
      { latencies := samples.mergeSort
        min_ns := samples.mergeSort.getD 0 0
        max_ns := samples.mergeSort.getD (samples.mergeSort.length - 1) 0
        total_ns := samples.mergeSort.foldl (fun acc x => (acc + x) % U64) 0 } := by
    simp [calculate_statistics, hlen0]
  rw [hcs]
  have hsort : (samples.mergeSort).Sorted (· ≤ ·) := List.sorted_mergeSort' samples
  have hLlen : (samples.mergeSort).length = samples.length := List.length_mergeSort samples
  have hn : (samples.mergeSort).length ≠ 0 := by omega
  have hgp : ∀ p : Nat, get_percentile
      { latencies := samples.mergeSort
        min_ns := samples.mergeSort.getD 0 0
        max_ns := samples.mergeSort.getD (samples.mergeSort.length - 1) 0
        total_ns := samples.mergeSort.foldl (fun acc x => (acc + x) % U64) 0 } p =
      (samples.mergeSort).getD
        (if (samples.mergeSort).length ≤ p * (samples.mergeSort).length / 100 then
          (samples.mergeSort).length - 1
        else p * (samples.mergeSort).length / 100) 0 := by
    intro p
    simp [get_percentile, hn, hne]
  rw [hgp 50, hgp 95, hgp 99]
  refine ⟨?_, ?_, ?_, ?_, hLlen⟩
  · exact sorted_getD_le _ hsort _ _ (by split <;> omega) (by split <;> omega)
  · exact sorted_getD_le _ hsort _ _ (by split <;> split <;> omega)
      (by split <;> omega)
  · exact sorted_getD_le _ hsort _ _ (by split <;> split <;> omega)
      (by split <;> omega)
  · exact sorted_getD_le _ hsort _ _ (by split <;> omega) (by omega)

/-- Witness for C1 at the concrete sample list `[3, 1, 2]`. -/
theorem claim1_witness :
    (calculate_statistics ⟨[3, 1, 2], 0, 0, 0⟩).min_ns ≤
      get_percentile (calculate_statistics ⟨[3, 1, 2], 0, 0, 0⟩) 50 ∧
    get_percentile (calculate_statistics ⟨[3, 1, 2], 0, 0, 0⟩) 50 ≤
      get_percentile (calculate_statistics ⟨[3, 1, 2], 0, 0, 0⟩) 95 ∧
    get_percentile (calculate_statistics ⟨[3, 1, 2], 0, 0, 0⟩) 95 ≤
      get_percentile (calculate_statistics ⟨[3, 1, 2], 0, 0, 0⟩) 99 ∧
    get_percentile (calculate_statistics ⟨[3, 1, 2], 0, 0, 0⟩) 99 ≤
      (calculate_statistics ⟨[3, 1, 2], 0, 0, 0⟩).max_ns ∧
    (calculate_statistics ⟨[3, 1, 2], 0, 0, 0⟩).latencies.length = ([3, 1, 2] : List Nat).length :=
  claim1 [3, 1, 2] 0 0 0 _ (by decide) rfl

/-- Replacing the entry at `j` by `x` and consing the old entry in front is
a permutation of consing `x` in front. -/
theorem getD_set_cons_perm (x : Nat) (xs : List Nat) (j : Nat) (hj : j < xs.length) :
    ((xs.getD j 0) :: xs.set j x).Perm (x :: xs) := by
  induction xs generalizing j with
  | nil => simp at hj
  | cons y t ih =>
    cases j with
    | zero =>
      simp only [List.getD_cons_zero, List.set_cons_zero]
      exact List.Perm.swap x y t
    | succ k =>
      simp only [List.getD_cons_succ, List.set_cons_succ]
      have hk : k < t.length := by simpa using hj
      exact ((List.Perm.swap y (t.getD k 0) (t.set k x)).trans
        (List.Perm.cons y (ih k hk))).trans (List.Perm.swap x y t)

/-- Swapping two in-bounds entries permutes the list. -/
theorem list_swap_perm (array : List Nat) (i j : Nat) (hij : i ≤ j)
    (hj : j < array.length) : (list_swap array i j).Perm array := by
  induction array generalizing i j with
  | nil => simp at hj
  | cons x t ih =>
    cases i with
    | zero =>
      cases j with
      | zero => simp [list_swap]
      | succ k =>
        have hk : k < t.length := by simpa using hj
        simp only [list_swap, List.getD_cons_zero, List.getD_cons_succ,
          List.set_cons_succ, List.set_cons_zero]
        exact getD_set_cons_perm x t k hk
    | succ n =>
      cases j with
      | zero => omega
      | succ k =>
        have hk : k < t.length := by simpa using hj
        simp only [list_swap, List.getD_cons_succ, List.set_cons_succ]
        exact List.Perm.cons x (ih n k (by omega) hk)

/-- Swapping preserves the length. -/
theorem list_swap_length (array : List Nat) (i j : Nat) :
    (list_swap array i j).length = array.length := by
  simp [list_swap]

/-- The shuffle loop permutes its input (strong induction on the number of
remaining iterations). -/
theorem shuffle_go_perm_fuel : ∀ (fuel : Nat) (array : List Nat) (n i rand_state : Nat),
    n - 1 - i ≤ fuel → array.length = n →
    ((shuffle_go array n i rand_state).1).Perm array := by
  intro fuel
  induction fuel with
  | zero =>
    intro array n i rand_state hf ha
    rw [shuffle_go]
    have hni : ¬ i < n - 1 := by omega
    simp only [hni, if_false]
    exact List.Perm.refl array
  | succ m ih =>
    intro array n i rand_state hf ha
    rw [shuffle_go]
    split
    · rename_i hlt
      show ((shuffle_go (list_swap array i (i + (fast_rand rand_state).2 % (n - i)))
          n (i + 1) (fast_rand rand_state).1).1).Perm array
      have hmod : (fast_rand rand_state).2 % (n - i) < n - i :=
        Nat.mod_lt _ (by omega)
      have hj : i + (fast_rand rand_state).2 % (n - i) < array.length := by omega
      have hlen : (list_swap array i (i + (fast_rand rand_state).2 % (n - i))).length = n := by
        rw [list_swap_length]; exact ha
      exact (ih _ n (i + 1) (fast_rand rand_state).1 (by omega) hlen).trans
        (list_swap_perm array i _ (by omega) hj)
    · exact List.Perm.refl array

/-- The shuffle loop permutes its input. -/
theorem shuffle_go_perm (array : List Nat) (n i rand_state : Nat)
    (ha : array.length = n) : ((shuffle_go array n i rand_state).1).Perm array :=
  shuffle_go_perm_fuel (n - 1 - i) array n i rand_state (Nat.le_refl _) ha

/-- C5: for every page count `n ≥ 1` and every LCG seed, initialising the
access order to `0 .. n-1` (mem_read_bench.c:261-263) and applying
`shuffle_array` yields a permutation of `0 .. n-1`: no index is duplicated
and none is omitted. -/
theorem claim5 (n rand_state : Nat) (h : 1 ≤ n) :
    ((shuffle_array (List.range n) n rand_state).1).Perm (List.range n) ∧
    ((shuffle_array (List.range n) n rand_state).1).Nodup ∧
    (∀ k, k < n → k ∈ (shuffle_array (List.range n) n rand_state).1) := by
  have hperm : ((shuffle_array (List.range n) n rand_state).1).Perm (List.range n) := by
    rw [shuffle_array]
    split
    · exact shuffle_go_perm _ n 0 rand_state (List.length_range n)
    · exact List.Perm.refl _
  exact ⟨hperm, hperm.nodup_iff.mpr (List.nodup_range n),
    fun k hk => hperm.mem_iff.mpr (List.mem_range.mpr hk)⟩

/-- Witness for C5 at the concrete size 4 and the fixed seed 12345. -/
theorem claim5_witness :
    ((shuffle_array (List.range 4) 4 12345).1).Perm (List.range 4) ∧
    ((shuffle_array (List.range 4) 4 12345).1).Nodup :=
  ⟨(claim5 4 12345 (by decide)).1, (claim5 4 12345 (by decide)).2.1⟩

/-- Length of the stride order from start `i`: one entry per started block
of 16 pages. -/
theorem stride_order_length (num_pages i : Nat) :
    (stride_order num_pages i).length = (num_pages - i + 15) / 16 := by
  rw [stride_order]
  split
  · rw [List.length_cons, stride_order_length num_pages (i + 16)]
    omega
  · simp
    omega
termination_by num_pages - i

/-- Every entry of the stride order from `i` is at least `i`, is `i` plus a
multiple of 16, and is below `num_pages`. -/
theorem stride_order_mem (num_pages i : Nat) :
    ∀ x ∈ stride_order num_pages i, i ≤ x ∧ (x - i) % 16 = 0 ∧ x < num_pages := by
  rw [stride_order]
  split
  · rename_i hin
    intro x hx
    rcases List.mem_cons.mp hx with rfl | hx
    · exact ⟨Nat.le_refl _, by simp, hin⟩
    · have h := stride_order_mem num_pages (i + 16) x hx
      omega
  · intro x hx
    simp at hx
termination_by num_pages - i

/-- The stride order is strictly increasing. -/
theorem stride_order_chain (num_pages i : Nat) :
    (stride_order num_pages i).Chain' (· < ·) := by
  rw [stride_order]
  split
  · rw [List.chain'_cons']
    refine ⟨?_, stride_order_chain num_pages (i + 16)⟩
    intro y hy
    have hmem := stride_order_mem num_pages (i + 16) y (List.mem_of_mem_head? hy)
    omega
  · exact List.chain'_nil
termination_by num_pages - i

/-- C6: for every page count `N ≥ 1`, the stride access order contains
exactly `ceil(N / 16) = (N + 15) / 16` page indices, each a multiple of the
stride 16 and below `N`, in strictly increasing order. -/
theorem claim6 (num_pages : Nat) (h : 1 ≤ num_pages) :
    (stride_order num_pages 0).length = (num_pages + 15) / 16 ∧
    (∀ x ∈ stride_order num_pages 0, x % 16 = 0 ∧ x < num_pages) ∧
    (stride_order num_pages 0).Chain' (· < ·) := by
  refine ⟨by simpa using stride_order_length num_pages 0, ?_, stride_order_chain num_pages 0⟩
  intro x hx
  have hm := stride_order_mem num_pages 0 x hx
  omega

/-- Witness for C6 at the concrete page count 20. -/
theorem claim6_witness :
    (stride_order 20 0).length = (20 + 15) / 16 ∧
    (∀ x ∈ stride_order 20 0, x % 16 = 0 ∧ x < 20) ∧
    (stride_order 20 0).Chain' (· < ·) :=
  claim6 20 (by decide)

/-- C7: for every range length, starting offset and LCG state, the Zero
fill (pattern 2) writes `size` bytes all zero, and the Sequential fill
(pattern 3) writes `size` bytes whose byte at every relative position `p`
is `(offset + p) % 256`; likewise `fill_page` of the write benchmark with
pattern 2 writes a zero page and with pattern 3 writes
`(page_index * 4096 + q) % 256` at every position `q` of the page. -/
theorem claim7 (size offset rand_state p : Nat) (hp : p < size)
    (page_index rs2 q : Nat) (hq : q < 4096) :
    (fill_pattern size 2 offset rand_state).1.length = size ∧
    (fill_pattern size 2 offset rand_state).1.getD p 0 = 0 ∧
    (fill_pattern size 3 offset rand_state).1.length = size ∧
    (fill_pattern size 3 offset rand_state).1.getD p 0 = (offset + p) % 256 ∧
    (fill_page 2 page_index rs2).1.length = 4096 ∧
    (fill_page 2 page_index rs2).1.getD q 0 = 0 ∧
    (fill_page 3 page_index rs2).1.length = 4096 ∧
    (fill_page 3 page_index rs2).1.getD q 0 = (page_index * 4096 + q) % 256 := by
  refine ⟨?_, ?_, ?_, ?_, ?_, ?_, ?_, ?_⟩
  · rw [fill_pattern]; norm_num
  · rw [fill_pattern]; norm_num
  · rw [fill_pattern]; norm_num
  · rw [fill_pattern]; norm_num
    rw [List.getElem?_range hp]
    simp
  · rw [fill_page]; norm_num
  · rw [fill_page]; norm_num
  · rw [fill_page]; norm_num
  · rw [fill_page]; norm_num
    rw [List.getElem?_range hq]
    simp

/-- Witness for C7 at concrete size 5, offset 300, position 2 and page
index 7, position 9. -/
theorem claim7_witness :
    (fill_pattern 5 2 300 1).1.length = 5 ∧
    (fill_pattern 5 2 300 1).1.getD 2 0 = 0 ∧
    (fill_pattern 5 3 300 1).1.length = 5 ∧
    (fill_pattern 5 3 300 1).1.getD 2 0 = (300 + 2) % 256 ∧
    (fill_page 2 7 1).1.length = 4096 ∧
    (fill_page 2 7 1).1.getD 9 0 = 0 ∧
    (fill_page 3 7 1).1.length = 4096 ∧
    (fill_page 3 7 1).1.getD 9 0 = (7 * 4096 + 9) % 256 :=
  claim7 5 300 1 2 (by decide) 7 1 9 (by decide)

/-- The value drawn by `fast_rand_range(100)` is always below 100. -/
theorem fast_rand_range_hundred_lt (s : Nat) : (Mixed.fast_rand_range 100 s).2 < 100 :=
  Nat.mod_lt _ (by decide)

/-- With `read_pct = 0` the classification `fast_rand_range(100) < 0` is
false for every operation, so a step never touches the read statistics. -/
theorem measure_step_read_pct_zero (madviseOk : Nat → Bool) (lat : Nat → Nat)
    (np : Nat) (st : Mixed.RunState) (i : Nat) :
    (Mixed.measure_step madviseOk lat np 0 st i).read_stats = st.read_stats := by
  simp [Mixed.measure_step]

/-- With `read_pct = 100` the classification is true for every operation,
so a step never touches the write statistics. -/
theorem measure_step_read_pct_hundred (madviseOk : Nat → Bool) (lat : Nat → Nat)
    (np : Nat) (st : Mixed.RunState) (i : Nat) :
    (Mixed.measure_step madviseOk lat np 100 st i).write_stats = st.write_stats := by
  simp [Mixed.measure_step, fast_rand_range_hundred_lt]

/-- Folding read-pct-0 steps never touches the read statistics. -/
theorem foldl_read_pct_zero (madviseOk : Nat → Bool) (lat : Nat → Nat) (np : Nat)
    (l : List Nat) (st : Mixed.RunState) :
    ((l.foldl (Mixed.measure_step madviseOk lat np 0) st)).read_stats = st.read_stats := by
  induction l generalizing st with
  | nil => rfl
  | cons a t ih =>
    rw [List.foldl_cons, ih, measure_step_read_pct_zero]

/-- Folding read-pct-100 steps never touches the write statistics. -/
theorem foldl_read_pct_hundred (madviseOk : Nat → Bool) (lat : Nat → Nat) (np : Nat)
    (l : List Nat) (st : Mixed.RunState) :
    ((l.foldl (Mixed.measure_step madviseOk lat np 100) st)).write_stats = st.write_stats := by
  induction l generalizing st with
  | nil => rfl
  | cons a t ih =>
    rw [List.foldl_cons, ih, measure_step_read_pct_hundred]

/-- C8: in the mixed workload, with `read_percent = 0` every operation is
classified as a write — no step ever records a read sample, the read
statistics stay empty over the whole run and the `read_stats` block of the
JSON document is absent; symmetrically, with `read_percent = 100` every
operation is classified as a read and the `write_stats` block is absent. -/
theorem claim8 (madviseOk : Nat → Bool) (lat : Nat → Nat) (num_pages s0 : Nat) :
    (∀ st i, (Mixed.measure_step madviseOk lat num_pages 0 st i).read_stats = st.read_stats) ∧
    (Mixed.measure_loop madviseOk lat num_pages 0 s0).read_stats.latencies = [] ∧
    (Mixed.print_results_json (Mixed.measure_loop madviseOk lat num_pages 0 s0).read_stats
      (Mixed.measure_loop madviseOk lat num_pages 0 s0).write_stats).1 = none ∧
    (∀ st i, (Mixed.measure_step madviseOk lat num_pages 100 st i).write_stats = st.write_stats) ∧
    (Mixed.measure_loop madviseOk lat num_pages 100 s0).write_stats.latencies = [] ∧
    (Mixed.print_results_json (Mixed.measure_loop madviseOk lat num_pages 100 s0).read_stats
      (Mixed.measure_loop madviseOk lat num_pages 100 s0).write_stats).2 = none := by
  have hr : (Mixed.measure_loop madviseOk lat num_pages 0 s0).read_stats.latencies = [] := by
    rw [Mixed.measure_loop, foldl_read_pct_zero]
    rfl
  have hw : (Mixed.measure_loop madviseOk lat num_pages 100 s0).write_stats.latencies = [] := by
    rw [Mixed.measure_loop, foldl_read_pct_hundred]
    rfl
  refine ⟨fun st i => measure_step_read_pct_zero madviseOk lat num_pages st i, hr, ?_,
    fun st i => measure_step_read_pct_hundred madviseOk lat num_pages st i, hw, ?_⟩
  · simp [Mixed.print_results_json, hr]
  · simp [Mixed.print_results_json, hw]

/-- `add_latency` keeps the capacity and, when the count is within the
capacity, keeps it within the capacity. -/
theorem add_latency_inv (stats : Mixed.latency_stats_t) (l c : Nat)
    (hc : stats.capacity = c) (hl : stats.latencies.length ≤ c) :
    (Mixed.add_latency stats l).capacity = c ∧
    (Mixed.add_latency stats l).latencies.length ≤ c := by
  unfold Mixed.add_latency
  split
  · rename_i hlt
    refine ⟨hc, ?_⟩
    simp only [List.length_append, List.length_cons, List.length_nil]
    omega
  · exact ⟨hc, hl⟩

/-- One measurement step preserves the count-within-capacity invariant of
both statistics records. -/
theorem measure_step_inv (madviseOk : Nat → Bool) (lat : Nat → Nat)
    (np rp cr cw : Nat) (st : Mixed.RunState) (i : Nat)
    (h1 : st.read_stats.capacity = cr) (h2 : st.read_stats.latencies.length ≤ cr)
    (h3 : st.write_stats.capacity = cw) (h4 : st.write_stats.latencies.length ≤ cw) :
    (Mixed.measure_step madviseOk lat np rp st i).read_stats.capacity = cr ∧
    (Mixed.measure_step madviseOk lat np rp st i).read_stats.latencies.length ≤ cr ∧
    (Mixed.measure_step madviseOk lat np rp st i).write_stats.capacity = cw ∧
    (Mixed.measure_step madviseOk lat np rp st i).write_stats.latencies.length ≤ cw := by
  by_cases hc : (Mixed.fast_rand_range 100 (Mixed.fast_rand_range np st.rand_state).1).2 < rp
  · obtain ⟨ha, hb⟩ := add_latency_inv st.read_stats (lat i) cr h1 h2
    simp only [Mixed.measure_step, if_pos hc]
    exact ⟨ha, hb, h3, h4⟩
  · obtain ⟨ha, hb⟩ := add_latency_inv st.write_stats (lat i) cw h3 h4
    simp only [Mixed.measure_step, if_neg hc]
    exact ⟨h1, h2, ha, hb⟩

/-- The measurement loop preserves the count-within-capacity invariant. -/
theorem foldl_measure_inv (madviseOk : Nat → Bool) (lat : Nat → Nat)
    (np rp cr cw : Nat) (l : List Nat) (st : Mixed.RunState)
    (h1 : st.read_stats.capacity = cr) (h2 : st.read_stats.latencies.length ≤ cr)
    (h3 : st.write_stats.capacity = cw) (h4 : st.write_stats.latencies.length ≤ cw) :
    (l.foldl (Mixed.measure_step madviseOk lat np rp) st).read_stats.capacity = cr ∧
    (l.foldl (Mixed.measure_step madviseOk lat np rp) st).read_stats.latencies.length ≤ cr ∧
    (l.foldl (Mixed.measure_step madviseOk lat np rp) st).write_stats.capacity = cw ∧
    (l.foldl (Mixed.measure_step madviseOk lat np rp) st).write_stats.latencies.length ≤ cw := by
  induction l generalizing st with
  | nil => exact ⟨h1, h2, h3, h4⟩
  | cons a t ih =>
    rw [List.foldl_cons]
    obtain ⟨ha, hb, hcw, hd⟩ := measure_step_inv madviseOk lat np rp cr cw st a h1 h2 h3 h4
    exact ih _ ha hb hcw hd

/-- C10: `add_latency` appends a sample only while `count < capacity` and
otherwise leaves the record unchanged, so the mixed benchmark's loop — even
though it issues `2 * num_pages` operations against records of capacity
`num_pages` — never pushes either per-kind sample count above
`num_pages`. -/
theorem claim10 (madviseOk : Nat → Bool) (lat : Nat → Nat)
    (num_pages read_pct s0 : Nat) (stats : Mixed.latency_stats_t) (l : Nat) :
    (stats.capacity ≤ stats.latencies.length → Mixed.add_latency stats l = stats) ∧
    (stats.latencies.length < stats.capacity →
      (Mixed.add_latency stats l).latencies = stats.latencies ++ [l]) ∧
    (Mixed.measure_loop madviseOk lat num_pages read_pct s0).read_stats.latencies.length
      ≤ num_pages ∧
    (Mixed.measure_loop madviseOk lat num_pages read_pct s0).write_stats.latencies.length
      ≤ num_pages := by
  refine ⟨?_, ?_, ?_, ?_⟩
  · intro hge
    unfold Mixed.add_latency
    rw [if_neg (by omega)]
  · intro hlt
    unfold Mixed.add_latency
    rw [if_pos hlt]
  · exact (foldl_measure_inv madviseOk lat num_pages read_pct num_pages num_pages
      _ _ rfl (by simp [Mixed.init_stats]) rfl (by simp [Mixed.init_stats])).2.1
  · exact (foldl_measure_inv madviseOk lat num_pages read_pct num_pages num_pages
      _ _ rfl (by simp [Mixed.init_stats]) rfl (by simp [Mixed.init_stats])).2.2.2

/-- Witness for C10 at a concrete full record and a concrete small run. -/
theorem claim10_witness :
    Mixed.add_latency ⟨[5], 1, 0, 0, 0⟩ 9 = ⟨[5], 1, 0, 0, 0⟩ ∧
    (Mixed.add_latency ⟨[], 1, 0, 0, 0⟩ 9).latencies = [] ++ [9] ∧
    (Mixed.measure_loop (fun _ => true) (fun _ => 7) 1 70 12345).read_stats.latencies.length
      ≤ 1 := by
  have h1 := claim10 (fun _ => true) (fun _ => 7) 1 70 12345 ⟨[5], 1, 0, 0, 0⟩ 9
  have h2 := claim10 (fun _ => true) (fun _ => 7) 1 70 12345 ⟨[], 1, 0, 0, 0⟩ 9
  exact ⟨h1.1 (by decide), h2.2.1 (by decide), h1.2.2.1⟩

/-- C3 (amended): in the write benchmark the `madvise(MADV_PAGEOUT)` result
is inspected and exactly the probes whose request succeeded contribute a
sample, in order; in the mixed benchmark the result of the `madvise` call
on the write path is ignored — the whole run is identical under any two
success oracles, so a write probe records its sample (capacity permitting)
whether or not the eviction request was refused. -/
theorem claim3 (madviseOk : Nat → Bool) (lat : Nat → Nat) (num_pages : Nat)
    (f g : Nat → Bool) (lat2 : Nat → Nat) (np rp s0 : Nat) :
    write_measure_loop madviseOk lat num_pages =
      ((List.range num_pages).filter madviseOk).map lat ∧
    Mixed.measure_loop f lat2 np rp s0 = Mixed.measure_loop g lat2 np rp s0 := by
  constructor
  · have hfold : ∀ (l : List Nat) (acc : List Nat),
        l.foldl (fun latencies i => if madviseOk i then latencies ++ [lat i] else latencies) acc
          = acc ++ (l.filter madviseOk).map lat := by
      intro l
      induction l with
      | nil => intro acc; simp
      | cons a t ih =>
        intro acc
        by_cases h : madviseOk a <;> simp [h, ih]
    simpa [write_measure_loop] using hfold (List.range num_pages) []
  · have hstep : Mixed.measure_step f lat2 np rp = Mixed.measure_step g lat2 np rp := by
      funext st i
      rfl
    rw [Mixed.measure_loop, Mixed.measure_loop, hstep]

/-- Counterexample for C3 as stated: in the mixed benchmark, a run in which
the OS refuses every eviction request (`madviseOk` constantly false) still
records a write-latency sample — the claim that a refused eviction request
is never recorded fails for the mixed benchmark. -/
theorem claim3_counterexample :
    (Mixed.measure_loop (fun _ => false) (fun _ => 5) 1 0 12345).write_stats.latencies = [5] ∧
    (Mixed.measure_loop (fun _ => false) (fun _ => 5) 1 0 12345).write_stats.latencies ≠ [] := by
  constructor
  · decide
  · decide

/-- C9 (amended): in the benchmark programs, an allocation failure is fatal
with nothing retried: a failed `mmap` exits 1 with nothing acquired, a
failed stats-array `malloc` releases the mapped region and exits 1, and no
statistics are produced. `mem_pressure`, however, retries a failed region
allocation once at half the requested size, proceeding with the halved
region on success and exiting 1 only when the retry also fails. -/
theorem claim9 (mallocOk : Nat → Bool) (total_size : Nat) (mmapOk statsOk : Bool) :
    (mallocOk total_size = true →
      mem_pressure_allocate mallocOk total_size = some total_size) ∧
    (mallocOk total_size = false → mallocOk (total_size / 2) = true →
      mem_pressure_allocate mallocOk total_size = some (total_size / 2)) ∧
    (mallocOk total_size = false → mallocOk (total_size / 2) = false →
      mem_pressure_allocate mallocOk total_size = none) ∧
    (mmapOk = false →
      mem_read_bench_setup mmapOk statsOk = SetupOutcome.exit1_nothing_held) ∧
    (mmapOk = true → statsOk = false →
      mem_read_bench_setup mmapOk statsOk = SetupOutcome.exit1_region_released) := by
  refine ⟨?_, ?_, ?_, ?_, ?_⟩ <;>
    intros <;> simp_all [mem_pressure_allocate, mem_read_bench_setup]

/-- Witness for C9 (amended) at concrete oracles: a 2 MiB request whose
first `malloc` fails and whose half-size retry succeeds, and the two fatal
benchmark setup outcomes. -/
theorem claim9_witness :
    mem_pressure_allocate (fun sz => sz == 1048576) 2097152 = some 1048576 ∧
    mem_read_bench_setup false true = SetupOutcome.exit1_nothing_held ∧
    mem_read_bench_setup true false = SetupOutcome.exit1_region_released := by
  refine ⟨?_, ?_, ?_⟩
  · simpa using (claim9 (fun sz => sz == 1048576) 2097152 false true).2.1
      (by decide) (by decide)
  · exact (claim9 (fun sz => sz == 0) 0 false true).2.2.2.1 rfl
  · exact (claim9 (fun sz => sz == 0) 0 true false).2.2.2.2 rfl rfl

/-- Counterexample for C9 as stated: when the 2 MiB `malloc` of
`mem_pressure` fails, the process does not exit with code 1 — it retries
the allocation at half the size and proceeds with the 1 MiB region. -/
theorem claim9_counterexample :
    (fun sz => sz == 1048576) 2097152 = false ∧
    mem_pressure_allocate (fun sz => sz == 1048576) 2097152 ≠ none ∧
    mem_pressure_allocate (fun sz => sz == 1048576) 2097152 = some 1048576 := by
  refine ⟨rfl, by decide, by decide⟩
